import Mathlib

/-!
Verification of the ssh-clipboard synchronization core (`src/main.rs`).

The development shallowly embeds the program's pure decision logic:

* `Message` and its serde_json serialization/deserialization,
* the dedup compare-and-set performed under the mutex (`tryAccept`),
* the clipboard watcher tick of `run_iosync_mode_on_mac` (lines 100-118),
* the stdin bridge loop of `run_iosync_mode_on_mac` (lines 121-143),
* the per-connection command handler of `run_iosync_mode_on_linux`
  (lines 51-86) together with `read_line` framing,
* the SET command construction of `run_xclip_mode` (lines 180-189).

Side effects (clipboard writes, stdout lines, emitted sync-frame lines on
stderr) are made explicit as result lists; the shared mutex state
`last_message` is threaded explicitly.
-/

/-- Rust `char::is_whitespace`: the Unicode `White_Space` property.
Used to model Rust's `str::trim`. -/
def rustIsWhitespace (c : Char) : Bool :=
  let n := c.toNat
  n = 0x20 || (0x09 ≤ n && n ≤ 0x0d) || n = 0x85 || n = 0xa0 || n = 0x1680 ||
  (0x2000 ≤ n && n ≤ 0x200a) || n = 0x2028 || n = 0x2029 || n = 0x202f ||
  n = 0x205f || n = 0x3000

/-- Rust `str::trim`: remove leading and trailing `White_Space` characters. -/
def rustTrim (s : String) : String :=
  String.mk (((s.data.dropWhile rustIsWhitespace).reverse.dropWhile
    rustIsWhitespace).reverse)

/-- Rust `str::trim_end`: remove only trailing `White_Space` characters.
Names the stored-value characterization of the SET handler: since `trim`
is applied to the whole request line `SET <payload>` and the verb is not
whitespace, the payload keeps its leading whitespace and loses only its
trailing whitespace. -/
def rustTrimEnd (s : String) : String :=
  String.mk ((s.data.reverse.dropWhile rustIsWhitespace).reverse)

/-- Rust `str::starts_with`: `s` begins with the characters of `pre`. -/
def strStartsWith (s pre : String) : Bool :=
  pre.data.isPrefixOf s.data

/-- Rust slicing `s[n..]` for an ASCII head of length `n` characters
(for ASCII, byte index and character index agree). -/
def dropChars (s : String) (n : Nat) : String :=
  String.mk (s.data.drop n)

/-- The wire message struct (`struct Message { content: String }`,
main.rs lines 29-32). -/
structure Message where
  content : String
deriving DecidableEq, Repr

/-- serde_json's JSON whitespace: space, tab, line feed, carriage return. -/
def isJsonWs (c : Char) : Bool :=
  c = ' ' || c = '\t' || c = '\n' || c = '\x0d'

/-- Skip leading JSON whitespace. -/
def skipWs : List Char → List Char
  | [] => []
  | c :: cs => if isJsonWs c then skipWs cs else c :: cs

/-- Value of one hex digit, as accepted in a JSON `\uXXXX` escape. -/
def hexVal (c : Char) : Option Nat :=
  if '0' ≤ c ∧ c ≤ '9' then some (c.toNat - 0x30)
  else if 'a' ≤ c ∧ c ≤ 'f' then some (c.toNat - 0x61 + 10)
  else if 'A' ≤ c ∧ c ≤ 'F' then some (c.toNat - 0x41 + 10)
  else none

/-- Hex digit character used by serde_json's `\u00xx` control escapes
(lowercase). -/
def hexDigitChar (n : Nat) : Char :=
  if n < 10 then Char.ofNat (0x30 + n) else Char.ofNat (0x61 + n - 10)

/-- serde_json's escaping of one character inside a JSON string: `"` and `\`
are escaped, the control characters BS/TAB/LF/FF/CR get short escapes, the
remaining characters below U+0020 get `\u00xx`, everything else is literal. -/
def jsonEscapeChar (c : Char) : String :=
  if c = '"' then "\\\""
  else if c = '\\' then "\\\\"
  else if c = '\x08' then "\\b"
  else if c = '\x09' then "\\t"
  else if c = '\x0a' then "\\n"
  else if c = '\x0c' then "\\f"
  else if c = '\x0d' then "\\r"
  else if c.toNat < 0x20 then
    String.mk ['\\', 'u', '0', '0', hexDigitChar (c.toNat / 16),
      hexDigitChar (c.toNat % 16)]
  else String.singleton c

/-- serde_json escaping of a whole string. -/
def jsonEscape (s : String) : String :=
  s.data.foldl (fun acc c => acc ++ jsonEscapeChar c) ""

/-- `serde_json::to_string(&msg)` for `Message` (keys in declaration order).
On a struct holding a valid UTF-8 `String` this serialization cannot fail,
so it is modelled as a total function: the `if let Ok(msg_str)` guards in
main.rs lines 76 and 111 always take the `Ok` branch. -/
def serializeMessage (m : Message) : String :=
  "\x7b\"content\":\"" ++ jsonEscape m.content ++ "\"\x7d"

/-- Body of a JSON string after the opening quote, with serde_json's escape
semantics: short escapes, `\uXXXX` (surrogate pairs combined, lone
surrogates rejected), raw control characters rejected. Returns the decoded
string and the input after the closing quote. -/
def parseStringBody : List Char → String → Option (String × List Char)
  | [], _ => none
  | '"' :: cs, acc => some (acc, cs)
  | '\\' :: es, acc =>
    match es with
    | [] => none
    | '"' :: cs => parseStringBody cs (acc.push '"')
    | '\\' :: cs => parseStringBody cs (acc.push '\\')
    | '/' :: cs => parseStringBody cs (acc.push '/')
    | 'b' :: cs => parseStringBody cs (acc.push '\x08')
    | 'f' :: cs => parseStringBody cs (acc.push '\x0c')
    | 'n' :: cs => parseStringBody cs (acc.push '\n')
    | 'r' :: cs => parseStringBody cs (acc.push '\x0d')
    | 't' :: cs => parseStringBody cs (acc.push '\t')
    | 'u' :: a :: b :: c :: d :: cs =>
      match hexVal a, hexVal b, hexVal c, hexVal d with
      | some ha, some hb, some hc, some hd =>
        let n := ((ha * 16 + hb) * 16 + hc) * 16 + hd
        if n < 0xd800 ∨ 0xdfff < n then
          parseStringBody cs (acc.push (Char.ofNat n))
        else if n ≤ 0xdbff then
          match cs with
          | '\\' :: 'u' :: a2 :: b2 :: c2 :: d2 :: cs2 =>
            match hexVal a2, hexVal b2, hexVal c2, hexVal d2 with
            | some ha2, some hb2, some hc2, some hd2 =>
              let m := ((ha2 * 16 + hb2) * 16 + hc2) * 16 + hd2
              if 0xdc00 ≤ m ∧ m ≤ 0xdfff then
                parseStringBody cs2 (acc.push
                  (Char.ofNat (0x10000 + (n - 0xd800) * 0x400 + (m - 0xdc00))))
              else none
            | _, _, _, _ => none
          | _ => none
        else none
      | _, _, _, _ => none
    | _ => none
  | c :: cs, acc =>
    if c.toNat < 0x20 then none else parseStringBody cs (acc.push c)

/-- JSON values, with just enough structure to model deserialization of
`Message`: only string payloads are retained, since every other value can
at most be skipped as an ignored field. -/
inductive Json where
  | str (s : String)
  | num
  | boolean (b : Bool)
  | null
  | arr (elems : List Json)
  | obj (fields : List (String × Json))
deriving Repr

/-- Longest leading run of ASCII digits, and the rest. -/
def takeDigits : List Char → List Char × List Char
  | [] => ([], [])
  | c :: cs =>
    if c.isDigit then
      let (d, r) := takeDigits cs
      (c :: d, r)
    else ([], c :: cs)

/-- JSON integer part: `0`, or a nonzero digit followed by digits
(leading zeros rejected, as serde_json does). -/
def parseIntPart : List Char → Option (List Char)
  | [] => none
  | '0' :: cs => some cs
  | c :: cs => if c.isDigit then some (takeDigits cs).2 else none

/-- Optional JSON fraction part `.digits`. -/
def parseFracPart : List Char → Option (List Char)
  | '.' :: cs =>
    match takeDigits cs with
    | ([], _) => none
    | (_ :: _, r) => some r
  | l => some l

/-- Optional JSON exponent part `[eE][+-]?digits`. -/
def parseExpPart : List Char → Option (List Char)
  | [] => some []
  | c :: cs =>
    if c = 'e' ∨ c = 'E' then
      let cs2 := match cs with
        | s :: r => if s = '+' ∨ s = '-' then r else s :: r
        | [] => []
      match takeDigits cs2 with
      | ([], _) => none
      | (_ :: _, r) => some r
    else some (c :: cs)

/-- A full JSON number (sign, integer, fraction, exponent); the numeric
value is irrelevant to `Message` decoding and is discarded. -/
def parseNumber (l : List Char) : Option (List Char) :=
  let l1 := match l with
    | '-' :: r => r
    | r => r
  match parseIntPart l1 with
  | none => none
  | some r1 =>
    match parseFracPart r1 with
    | none => none
    | some r2 => parseExpPart r2

/-- Expect a fixed character sequence (for the literals `true`, `false`,
`null`). -/
def expectChars : List Char → List Char → Option (List Char)
  | [], l => some l
  | e :: es, c :: cs => if c = e then expectChars es cs else none
  | _ :: _, [] => none

mutual

/-- One JSON value (fuel-indexed recursive-descent; the fuel chosen in
`decodeMessage` always suffices for its input). -/
def parseValue : Nat → List Char → Option (Json × List Char)
  | 0, _ => none
  | fuel + 1, l =>
    match skipWs l with
    | [] => none
    | c :: cs =>
      if c = '"' then
        match parseStringBody cs "" with
        | some (s, r) => some (.str s, r)
        | none => none
      else if c = '\x7b' then parseObjFields fuel (skipWs cs)
      else if c = '[' then parseArrElems fuel (skipWs cs)
      else if c = 't' then
        match expectChars ['r', 'u', 'e'] cs with
        | some r => some (.boolean true, r)
        | none => none
      else if c = 'f' then
        match expectChars ['a', 'l', 's', 'e'] cs with
        | some r => some (.boolean false, r)
        | none => none
      else if c = 'n' then
        match expectChars ['u', 'l', 'l'] cs with
        | some r => some (.null, r)
        | none => none
      else if c = '-' ∨ c.isDigit then
        match parseNumber (c :: cs) with
        | some r => some (.num, r)
        | none => none
      else none

/-- Array elements, positioned after `[` (whitespace skipped). -/
def parseArrElems : Nat → List Char → Option (Json × List Char)
  | 0, _ => none
  | fuel + 1, l =>
    match l with
    | ']' :: r => some (.arr [], r)
    | _ =>
      match parseArrRest fuel l with
      | some (vs, r) => some (.arr vs, r)
      | none => none

/-- One or more comma-separated array elements. -/
def parseArrRest : Nat → List Char → Option (List Json × List Char)
  | 0, _ => none
  | fuel + 1, l =>
    match parseValue fuel l with
    | none => none
    | some (v, r) =>
      match skipWs r with
      | ']' :: r2 => some ([v], r2)
      | ',' :: r2 =>
        match parseArrRest fuel (skipWs r2) with
        | some (vs, r3) => some (v :: vs, r3)
        | none => none
      | _ => none

/-- Object fields, positioned after the opening brace (whitespace
skipped). -/
def parseObjFields : Nat → List Char → Option (Json × List Char)
  | 0, _ => none
  | fuel + 1, l =>
    match l with
    | '\x7d' :: r => some (.obj [], r)
    | _ =>
      match parseObjRest fuel l with
      | some (fs, r) => some (.obj fs, r)
      | none => none

/-- One or more comma-separated `"key": value` fields. -/
def parseObjRest : Nat → List Char → Option (List (String × Json) × List Char)
  | 0, _ => none
  | fuel + 1, l =>
    match l with
    | '"' :: cs =>
      match parseStringBody cs "" with
      | none => none
      | some (k, r) =>
        match skipWs r with
        | ':' :: r2 =>
          match parseValue fuel r2 with
          | none => none
          | some (v, r3) =>
            match skipWs r3 with
            | '\x7d' :: r4 => some ([(k, v)], r4)
            | ',' :: r4 =>
              match parseObjRest fuel (skipWs r4) with
              | some (fs, r5) => some ((k, v) :: fs, r5)
              | none => none
            | _ => none
        | _ => none
    | _ => none

end

/-- The derived `Deserialize` for `Message` applied to an object's fields:
`content` must occur exactly once and hold a string (serde errors on a
duplicate or missing `content`); unknown fields are ignored. -/
def messageContent (fields : List (String × Json)) : Option String :=
  match fields.filter (fun f => f.1 = "content") with
  | [(_, Json.str s)] => some s
  | _ => none

/-- `serde_json::from_str::<Message>`: parse one JSON value, require only
trailing whitespace after it, and accept a map with a `content` string
field, or (serde's struct-from-sequence convention) a one-element array
holding the `content` string. -/
def decodeMessage (s : String) : Option Message :=
  match parseValue (2 * s.data.length + 4) s.data with
  | some (Json.obj fields, rest) =>
    if skipWs rest = [] then
      match messageContent fields with
      | some c => some ⟨c⟩
      | none => none
    else none
  | some (Json.arr [Json.str c], rest) =>
    if skipWs rest = [] then some ⟨c⟩ else none
  | _ => none

/-- The marker the outbound emitters actually print:
`eprintln!("CLIPBOARD-SYNC:{}", msg_str)` at main.rs lines 78 and 113.
Note the HYPHEN. -/
def emitMarker : String := "CLIPBOARD-SYNC:"

/-- The marker the inbound classifier tests:
`line.starts_with("CLIPBOARD_SYNC:")` at main.rs line 126.
Note the UNDERSCORE. -/
def syncMarker : String := "CLIPBOARD_SYNC:"

/-- One emitted sync-frame line: the outbound marker followed by the
serialized message (main.rs lines 76-79 and 111-114). -/
def emitFrameLine (t : String) : String :=
  emitMarker ++ serializeMessage ⟨t⟩

/-- The dedup gate: the compare-and-set on `last_message` that every
producer performs under the mutex (inlined in main.rs at lines 74-80,
104-115 and 130-136). Returns the propagation decision and the new state. -/
def tryAccept (last candidate : String) : Option String × String :=
  if last ≠ candidate then (some candidate, candidate) else (none, last)

/-- One tick of the macOS clipboard watcher thread (main.rs lines 102-116):
read the clipboard; if the read succeeded and differs from `last`, store it
and emit one sync-frame line on stderr. Returns (new `last`, emitted lines). -/
def clipboardTick (last : String) (readResult : Option String) :
    String × List String :=
  match readResult with
  | some text =>
    if last ≠ text then (text, [emitFrameLine text]) else (last, [])
  | none => (last, [])

/-- The per-connection command handler of the Linux socket server
(main.rs lines 59-84): trim the request line, then answer `GET`,
`SET <text>` or `Unknown command`. Returns
(new `last`, reply written to the socket, sync-frame lines emitted on
stderr). -/
def handleCommand (last raw : String) : String × String × List String :=
  let command := rustTrim raw
  if command = "GET" then
    (last, last, [])
  else if strStartsWith command "SET " then
    let new_text := dropChars command 4
    if last ≠ new_text then
      (new_text, "OK", [emitFrameLine new_text])
    else
      (last, "OK", [])
  else
    (last, "Unknown command", [])

/-- `BufRead::read_line` framing (main.rs lines 53-58): consume characters
up to and including the first newline (or the whole input at EOF). -/
def takeLine : List Char → List Char
  | [] => []
  | c :: cs => if c = '\n' then ['\n'] else c :: takeLine cs

/-- The single request the server reads from one connection: exactly one
`read_line` call on the stream's byte sequence. -/
def readRequest (wire : String) : String :=
  String.mk (takeLine wire.data)

/-- A whole connection of the Linux socket server: one `read_line`, then
`handleCommand`, then shutdown (main.rs lines 51-86). -/
def handleConnection (last wire : String) : String × String × List String :=
  handleCommand last (readRequest wire)

/-- The SET request built by the xclip-mode client (main.rs lines 180-189):
all of its standard input's lines joined by newlines, prefixed by the verb;
no trailing newline is appended. -/
def xclipSetCommand (stdinLines : List String) : String :=
  "SET " ++ String.intercalate "\n" stdinLines

/-- Processing of one inbound stdin line by the macOS bridge thread
(main.rs lines 124-141): a line starting with `CLIPBOARD_SYNC:` has its
remainder trimmed and JSON-decoded; a decoded content differing from
`last` is stored and written to the clipboard; any other prefixed line is
dropped; a non-prefixed line is printed to stdout. Returns
(new `last`, clipboard writes, stdout lines, emitted sync-frame lines);
the loop's body contains no frame emission, so the last component is
always empty. -/
def processStdinLine (last line : String) :
    String × List String × List String × List String :=
  if strStartsWith line syncMarker then
    let msg_str := rustTrim (dropChars line syncMarker.length)
    match decodeMessage msg_str with
    | some msg =>
      if last ≠ msg.content then (msg.content, [msg.content], [], [])
      else (last, [], [], [])
    | none => (last, [], [], [])
  else
    (last, [], [line], [])

/-- The bridge's reader loop over a finite stdin: thread the state through
`processStdinLine`, concatenating the effects in order. -/
def processStdinLines (last : String) :
    List String → String × List String × List String × List String
  | [] => (last, [], [], [])
  | l :: ls =>
    let r := processStdinLine last l
    let rest := processStdinLines r.1 ls
    (rest.1, r.2.1 ++ rest.2.1, r.2.2.1 ++ rest.2.2.1, r.2.2.2 ++ rest.2.2.2)

/-! ## Helper lemmas -/

lemma strData_append (a b : String) : (a ++ b).data = a.data ++ b.data := rfl

lemma takeLine_append (l rest : List Char) (h : ∀ c ∈ l, c ≠ '\n') :
    takeLine (l ++ '\n' :: rest) = l ++ ['\n'] := by
  induction l with
  | nil => simp [takeLine]
  | cons c cs ih =>
    have hc : c ≠ '\n' := h c (by simp)
    simp [takeLine, hc, ih (fun x hx => h x (by simp [hx]))]

lemma trim_set_append (p : String) :
    rustTrim ("SET " ++ p) =
      if rustTrimEnd p = "" then "SET" else "SET " ++ rustTrimEnd p := by
  have hdata : ("SET " ++ p).data = 'S' :: 'E' :: 'T' :: ' ' :: p.data := rfl
  unfold rustTrim
  rw [hdata]
  rw [List.dropWhile_cons, if_neg (by decide : ¬ (rustIsWhitespace 'S' = true))]
  have hrev : ('S' :: 'E' :: 'T' :: ' ' :: p.data).reverse
      = p.data.reverse ++ [' ', 'T', 'E', 'S'] := by
    simp
  rw [hrev, List.dropWhile_append]
  by_cases hq : (p.data.reverse.dropWhile rustIsWhitespace) = []
  · have hend : rustTrimEnd p = "" := by
      unfold rustTrimEnd
      rw [hq]
      rfl
    rw [if_pos hend, hq]
    simp only [List.isEmpty_nil, if_true]
    decide
  · have hend : rustTrimEnd p ≠ "" := by
      unfold rustTrimEnd
      intro h
      have := congrArg String.data h
      simp only [List.reverse_eq_nil_iff] at this
      exact hq this
    rw [if_neg hend]
    rw [if_neg (by simp [List.isEmpty_iff, hq])]
    rw [List.reverse_append]
    show String.mk ('S' :: 'E' :: 'T' :: ' ' :: (rustTrimEnd p).data) = _
    rfl

lemma processStdinLine_stdout (last l : String) :
    (processStdinLine last l).2.2.1 =
      if strStartsWith l syncMarker then [] else [l] := by
  by_cases h : strStartsWith l syncMarker = true
  · simp only [processStdinLine, h, if_true]
    cases hd : decodeMessage (rustTrim (dropChars l syncMarker.length)) with
    | none => simp
    | some m =>
      by_cases he : last ≠ m.content <;> simp [he]
  · simp only [processStdinLine, Bool.not_eq_true] at h
    simp [processStdinLine, h]

/-! ## Claims -/

/-- C1: the claim says every outbound sync emission carries the same fixed
marker the inbound classifier tests for, so that emitted frame lines are
recognized by the receiving side.  The code violates this: the emitters
print `CLIPBOARD-SYNC:` (hyphen, main.rs lines 78 and 113) while the
classifier tests `CLIPBOARD_SYNC:` (underscore, line 126).  Evaluated at
content `"hello"`: the emitted line fails the classifier test, and the
receiving bridge treats it as pass-through text instead of a sync frame. -/
theorem emitted_frame_not_recognized :
    emitFrameLine "hello" = "CLIPBOARD-SYNC:\x7b\"content\":\"hello\"\x7d" ∧
    emitMarker ≠ syncMarker ∧
    strStartsWith (emitFrameLine "hello") syncMarker = false ∧
    processStdinLine "" (emitFrameLine "hello") =
      ("", [], [emitFrameLine "hello"], []) := by
  refine ⟨by decide, by decide, by decide, by decide⟩

/-- C2: the dedup gate is idempotent: for `t` different from the current
`last`, the first compare-and-set accepts (state becomes `t`, the value is
propagated — the watcher emits one frame) and the second rejects as a
no-op (state unchanged, nothing emitted). -/
theorem tryAccept_idempotent (last t : String) (h : last ≠ t) :
    tryAccept last t = (some t, t) ∧ tryAccept t t = (none, t) ∧
    clipboardTick last (some t) = (t, [emitFrameLine t]) ∧
    clipboardTick t (some t) = (t, []) := by
  refine ⟨?_, ?_, ?_, ?_⟩ <;> simp [tryAccept, clipboardTick, h]

theorem tryAccept_idempotent_witness :
    (("" : String) ≠ "a") ∧
    (tryAccept "" "a" = (some "a", "a") ∧ tryAccept "a" "a" = (none, "a") ∧
     clipboardTick "" (some "a") = ("a", [emitFrameLine "a"]) ∧
     clipboardTick "a" (some "a") = ("a", [])) :=
  ⟨by decide, tryAccept_idempotent "" "a" (by decide)⟩

/-- C3: loop-freedom: an inbound line that classifies as a sync frame and
decodes to content equal to the current `last` triggers no clipboard
write, no stdout output, no re-emission, and leaves `last` unchanged. -/
theorem loop_freedom (last line : String) (m : Message)
    (h1 : strStartsWith line syncMarker = true)
    (h2 : decodeMessage (rustTrim (dropChars line syncMarker.length)) =
      some m)
    (h3 : m.content = last) :
    processStdinLine last line = (last, [], [], []) := by
  simp [processStdinLine, h1, h2, h3]

theorem loop_freedom_witness :
    strStartsWith "CLIPBOARD_SYNC:\x7b\"content\":\"a\"\x7d" syncMarker
      = true ∧
    decodeMessage (rustTrim (dropChars
      "CLIPBOARD_SYNC:\x7b\"content\":\"a\"\x7d" syncMarker.length)) =
      some ⟨"a"⟩ ∧
    processStdinLine "a" "CLIPBOARD_SYNC:\x7b\"content\":\"a\"\x7d" =
      ("a", [], [], []) :=
  ⟨rfl, rfl,
    loop_freedom "a" "CLIPBOARD_SYNC:\x7b\"content\":\"a\"\x7d" ⟨"a"⟩
      rfl rfl rfl⟩

/-- C4: a GET request returns the current `last` verbatim; on a fresh
server (state `""`, never SET) it returns the empty string, and after
`SET hello` a subsequent GET returns `hello`. -/
theorem get_returns_last (last : String) :
    handleConnection last "GET\n" = (last, last, []) ∧
    (handleConnection "" "GET\n").2.1 = "" ∧
    handleConnection (handleConnection "" "SET hello").1 "GET\n" =
      ("hello", "hello", []) :=
  ⟨rfl, rfl, rfl⟩

/-- C5: every well-formed SET request is answered `OK`, duplicate or not,
and exactly one frame is emitted per distinct accepted value: `SET hello`
twice in a row yields `OK` both times but only the first emits a frame. -/
theorem set_replies_ok (last cmd : String)
    (h : strStartsWith (rustTrim cmd) "SET " = true) :
    (handleCommand last cmd).2.1 = "OK" ∧
    handleCommand "" "SET hello" = ("hello", "OK", [emitFrameLine "hello"]) ∧
    handleCommand "hello" "SET hello" = ("hello", "OK", []) := by
  refine ⟨?_, rfl, rfl⟩
  by_cases hg : rustTrim cmd = "GET"
  · rw [hg] at h
    exact absurd h (by decide)
  · simp only [handleCommand, hg, if_false, h, if_true]
    by_cases he : last ≠ dropChars (rustTrim cmd) 4 <;> simp [he]

theorem set_replies_ok_witness :
    strStartsWith (rustTrim "SET hello") "SET " = true ∧
    ((handleCommand "" "SET hello").2.1 = "OK" ∧
     handleCommand "" "SET hello" = ("hello", "OK", [emitFrameLine "hello"]) ∧
     handleCommand "hello" "SET hello" = ("hello", "OK", [])) :=
  ⟨rfl, set_replies_ok "" "SET hello" rfl⟩

/-- C6: pass-through fidelity: over any finite run of the bridge loop the
stdout lines are exactly the non-frame input lines, unchanged and in
arrival order; and a single non-frame line is forwarded verbatim with no
change to `last`, no clipboard write and no emission. -/
theorem passthrough_fidelity (last : String) (lines : List String)
    (line : String) (h : strStartsWith line syncMarker = false) :
    (processStdinLines last lines).2.2.1 =
      lines.filter (fun l => !(strStartsWith l syncMarker)) ∧
    processStdinLine last line = (last, [], [line], []) := by
  constructor
  · induction lines generalizing last with
    | nil => simp [processStdinLines]
    | cons l ls ih =>
      simp only [processStdinLines, List.filter_cons]
      rw [processStdinLine_stdout]
      by_cases hl : strStartsWith l syncMarker = true
      · simp [hl, ih]
      · simp only [Bool.not_eq_true] at hl
        simp [hl, ih]
  · simp [processStdinLine, h]

theorem passthrough_fidelity_witness :
    strStartsWith "hello" syncMarker = false ∧
    ((processStdinLines "" ["x", "CLIPBOARD_SYNC:bad", "y"]).2.2.1 =
      (["x", "CLIPBOARD_SYNC:bad", "y"].filter
        (fun l => !(strStartsWith l syncMarker))) ∧
     processStdinLine "" "hello" = ("", [], ["hello"], [])) :=
  ⟨rfl, passthrough_fidelity "" ["x", "CLIPBOARD_SYNC:bad", "y"] "hello" rfl⟩

/-- C7: the server performs exactly one `read_line` per connection, so a
SET whose payload contains a newline is truncated at the first newline
and the rest of the request is never read: the handled request is
independent of everything after the first newline, and the client command
built from stdin lines `a`, `b` stores just `a`.  Multi-line content
cannot be set through the socket protocol. -/
theorem one_line_per_connection (last s rest : String)
    (h : ∀ c ∈ s.data, c ≠ '\n') :
    handleConnection last ("SET " ++ s ++ "\n" ++ rest) =
      handleCommand last ("SET " ++ s ++ "\n") ∧
    handleConnection "" (xclipSetCommand ["a", "b"]) =
      ("a", "OK", [emitFrameLine "a"]) ∧
    (("a" : String) ≠ "a\nb") := by
  refine ⟨?_, rfl, by decide⟩
  have hall : ∀ c ∈ "SET ".data ++ s.data, c ≠ '\n' := by
    intro c hc
    rcases List.mem_append.1 hc with h1 | h2
    · fin_cases h1 <;> decide
    · exact h c h2
  have h1 : ("SET " ++ s ++ "\n" ++ rest).data
      = ("SET ".data ++ s.data) ++ '\n' :: rest.data := by
    simp [strData_append]
  have h2 : ("SET " ++ s ++ "\n").data = ("SET ".data ++ s.data) ++ ['\n'] := by
    simp [strData_append]
  unfold handleConnection readRequest
  rw [h1, takeLine_append _ _ hall, ← h2]

theorem one_line_per_connection_witness :
    (∀ c ∈ ("a" : String).data, c ≠ '\n') ∧
    (handleConnection "" ("SET " ++ "a" ++ "\n" ++ "b") =
      handleCommand "" ("SET " ++ "a" ++ "\n") ∧
     handleConnection "" (xclipSetCommand ["a", "b"]) =
      ("a", "OK", [emitFrameLine "a"]) ∧
     (("a" : String) ≠ "a\nb")) :=
  ⟨by decide, one_line_per_connection "" "a" "b" (by decide)⟩

/-- C8 counterexample: the claim says the stored value of a SET is the
payload with surrounding whitespace stripped.  For the payload `" x "`
(request `"SET  x "`) the server stores `" x"`, not the fully trimmed
`"x"`: only whitespace at the ends of the whole request line is removed,
so the payload's leading space survives. -/
theorem set_keeps_leading_whitespace :
    (handleCommand "" ("SET " ++ " x ")).1 = " x" ∧
    rustTrim " x " = "x" ∧ ((" x" : String) ≠ "x") :=
  ⟨rfl, rfl, by decide⟩

/-- C8 amended: the server trims the whole request line before parsing,
so for every state and every payload, the value stored by `SET <payload>`
is the payload with exactly its trailing whitespace stripped — leading
whitespace after the verb's separator space survives — with reply `OK`
and one emission iff the stored value differs from `last`; and every SET
whose payload is empty or whitespace-only trims to the bare verb `SET`,
is not parsed as a SET, is answered `Unknown command`, and leaves `last`
unchanged. -/
theorem set_trims_line_ends (last p : String) :
    (rustTrimEnd p ≠ "" →
      handleCommand last ("SET " ++ p) =
        (rustTrimEnd p, "OK",
          if last ≠ rustTrimEnd p then [emitFrameLine (rustTrimEnd p)]
          else [])) ∧
    (rustTrimEnd p = "" →
      handleCommand last ("SET " ++ p) = (last, "Unknown command", [])) ∧
    handleCommand "" ("SET " ++ " x ") = (" x", "OK", [emitFrameLine " x"]) := by
  refine ⟨?_, ?_, rfl⟩
  · intro hne
    unfold handleCommand
    rw [trim_set_append, if_neg hne]
    have hget : ¬ ("SET " ++ rustTrimEnd p = "GET") := by
      intro h
      have hd := congrArg String.data h
      have hd2 : 'S' :: 'E' :: 'T' :: ' ' :: (rustTrimEnd p).data = ['G', 'E', 'T'] :=
        hd
      simp at hd2
    rw [if_neg hget]
    have hsw : strStartsWith ("SET " ++ rustTrimEnd p) "SET " = true := by
      unfold strStartsWith
      rw [List.isPrefixOf_iff_prefix]
      show ['S', 'E', 'T', ' '] <+: 'S' :: 'E' :: 'T' :: ' ' :: (rustTrimEnd p).data
      exact List.prefix_append ['S', 'E', 'T', ' '] (rustTrimEnd p).data
    simp only [hsw, if_true]
    have hdrop : dropChars ("SET " ++ rustTrimEnd p) 4 = rustTrimEnd p := rfl
    rw [hdrop]
    by_cases he : last = rustTrimEnd p
    · simp [he]
    · simp [he]
  · intro heq
    unfold handleCommand
    rw [trim_set_append, if_pos heq]
    rfl

theorem set_trims_line_ends_witness :
    (rustTrimEnd " x " ≠ "") ∧
    handleCommand "" ("SET " ++ " x ") =
      (rustTrimEnd " x ", "OK",
        if ("" : String) ≠ rustTrimEnd " x " then
          [emitFrameLine (rustTrimEnd " x ")]
        else []) ∧
    (rustTrimEnd " \t " = "") ∧
    handleCommand "hi" ("SET " ++ " \t ") = ("hi", "Unknown command", []) :=
  ⟨by decide, (set_trims_line_ends "" " x ").1 (by decide), by decide,
    (set_trims_line_ends "hi" " \t ").2.1 (by decide)⟩

/-- C9: a line that classifies as a sync frame but whose remainder fails
to decode is silently discarded: no state change, no clipboard write, no
output, no emission, and the reader loop continues exactly as if the line
had not arrived. -/
theorem malformed_frame_discarded (last line : String) (rest : List String)
    (h1 : strStartsWith line syncMarker = true)
    (h2 : decodeMessage (rustTrim (dropChars line syncMarker.length)) =
      none) :
    processStdinLine last line = (last, [], [], []) ∧
    processStdinLines last (line :: rest) = processStdinLines last rest := by
  have hp : processStdinLine last line = (last, [], [], []) := by
    simp [processStdinLine, h1, h2]
  exact ⟨hp, by simp [processStdinLines, hp]⟩

theorem malformed_frame_discarded_witness :
    strStartsWith "CLIPBOARD_SYNC:garbage" syncMarker = true ∧
    decodeMessage (rustTrim (dropChars "CLIPBOARD_SYNC:garbage"
      syncMarker.length)) = none ∧
    (processStdinLine "x" "CLIPBOARD_SYNC:garbage" = ("x", [], [], []) ∧
     processStdinLines "x" ("CLIPBOARD_SYNC:garbage" :: ["y"]) =
       processStdinLines "x" ["y"]) :=
  ⟨rfl, rfl, malformed_frame_discarded "x" "CLIPBOARD_SYNC:garbage" ["y"]
    rfl rfl⟩

/-- C10: in the socket server, `last` changes only through the SET
handler, and it changes exactly when the request is a SET whose payload
differs from the current `last`; every change is accompanied by exactly
one emitted frame carrying the new value (frame serialization is total on
UTF-8 strings, so the `Ok` guard always holds). -/
theorem state_emission_coupling (last cmd : String) :
    (((handleCommand last cmd).1 = last ∧
      (handleCommand last cmd).2.2 = []) ∨
     (strStartsWith (rustTrim cmd) "SET " = true ∧
      (handleCommand last cmd).1 = dropChars (rustTrim cmd) 4 ∧
      (handleCommand last cmd).1 ≠ last ∧
      (handleCommand last cmd).2.2 =
        [emitFrameLine (dropChars (rustTrim cmd) 4)])) ∧
    (strStartsWith (rustTrim cmd) "SET " = true →
      dropChars (rustTrim cmd) 4 ≠ last →
      handleCommand last cmd = (dropChars (rustTrim cmd) 4, "OK",
        [emitFrameLine (dropChars (rustTrim cmd) 4)])) := by
  by_cases hg : rustTrim cmd = "GET"
  · constructor
    · left
      simp [handleCommand, hg]
    · intro hs
      rw [hg] at hs
      exact absurd hs (by decide)
  · by_cases hs : strStartsWith (rustTrim cmd) "SET " = true
    · by_cases he : dropChars (rustTrim cmd) 4 = last
      · constructor
        · left
          simp [handleCommand, hg, hs, he]
        · intro _ hne
          exact absurd he hne
      · constructor
        · right
          have hne : last ≠ dropChars (rustTrim cmd) 4 := fun hx => he hx.symm
          simp [handleCommand, hg, hs, hne, he]
        · intro _ _
          have hne : last ≠ dropChars (rustTrim cmd) 4 := fun hx => he hx.symm
          simp [handleCommand, hg, hs, hne]
    · constructor
      · left
        simp [handleCommand, hg, hs]
      · intro hx
        exact absurd hx hs

theorem state_emission_coupling_witness :
    ((((handleCommand "" "SET hi").1 = "" ∧
       (handleCommand "" "SET hi").2.2 = []) ∨
      (strStartsWith (rustTrim "SET hi") "SET " = true ∧
       (handleCommand "" "SET hi").1 = dropChars (rustTrim "SET hi") 4 ∧
       (handleCommand "" "SET hi").1 ≠ "" ∧
       (handleCommand "" "SET hi").2.2 =
         [emitFrameLine (dropChars (rustTrim "SET hi") 4)])) ∧
     (strStartsWith (rustTrim "SET hi") "SET " = true →
       dropChars (rustTrim "SET hi") 4 ≠ "" →
       handleCommand "" "SET hi" = (dropChars (rustTrim "SET hi") 4, "OK",
         [emitFrameLine (dropChars (rustTrim "SET hi") 4)]))) :=
  state_emission_coupling "" "SET hi"
